import Mathlib

/-!
# Verification of the kaikatsu-api acquisition–normalization–cache–schedule pipeline

Shallow embedding of the TypeScript sources:
* `src/services/scraper.service.ts` — normalizer (status-string parse, status-code
  map, rendered-document extraction), retry orchestration;
* `src/services/scheduler.service.ts` — cadence-aligned scheduler;
* `src/services/cache.service.ts` — TTL cache (wrapping node-cache semantics);
* `src/controllers/vacancy.controller.ts` — the vacancy endpoint handler.

Machine integers are modelled as `Nat`/`Int`; JavaScript regular-expression
matching is modelled by explicit leftmost-match scans over `List Char`;
I/O results (HTTP fetches, page scrapes) are modelled as `Except`-valued
oracles indexed by attempt number.
-/

namespace Kaikatsu

/-! ## Data model (`src/types/vacancy.ts`) -/

/-- The vacancy status enum `'vacant' | 'crowded' | 'full' | 'unknown'`. -/
inductive Status
  | vacant
  | crowded
  | full
  | unknown
deriving DecidableEq, Repr

/-- The `dartVacancy` component of `VacancyData`. -/
structure DartVacancy where
  available : Nat
  total : Nat
  status : Status
deriving DecidableEq, Repr

/-- The canonical `VacancyData` record.  Timestamps are kept as opaque
strings (ISO 8601 in the source). -/
structure VacancyData where
  storeCode : String
  storeName : String
  dartVacancy : DartVacancy
  lastUpdated : String
  fetchedAt : String
deriving DecidableEq, Repr

/-! ## Character-level regex scans

JavaScript `String.match` returns the leftmost match.  Each scan below walks
the character list from the left and, at each start position, attempts the
pattern exactly as the JS regex engine would (greedy digit runs; backtracking
a `\d+` run can never succeed here because the following atom is a
non-digit literal, so only the maximal run is tried). -/

/-- Value of a digit string, as `parseInt` computes it on an all-digit capture. -/
def digitsToNat (ds : List Char) : Nat :=
  ds.foldl (fun n c => n * 10 + (c.toNat - 48)) 0

/-- Helper for `/(\d+)[\s]*台/` at a fixed start: a nonempty digit run,
optional whitespace, then `台`; returns the captured number. -/
def numDaiHere (cs : List Char) : Option Nat :=
  let ds := cs.takeWhile Char.isDigit
  if ds.isEmpty then none
  else
    match (cs.dropWhile Char.isDigit).dropWhile Char.isWhitespace with
    | c :: _ => if c = '台' then some (digitsToNat ds) else none
    | [] => none

/-- Leftmost match of `/(\d+)[\s]*[台]/` (the `availableMatch` regex in
`extractDartVacancy`), returning the captured number. -/
def matchNumDai : List Char → Option Nat
  | [] => none
  | c :: rest =>
    if c.isDigit then
      match numDaiHere (c :: rest) with
      | some n => some n
      | none => matchNumDai rest
    else matchNumDai rest

/-- Leftmost match of `/\/[\s]*(\d+)[\s]*台/` (first `totalMatch` regex). -/
def matchSlashNumDai : List Char → Option Nat
  | [] => none
  | c :: rest =>
    if c = '/' then
      match numDaiHere (rest.dropWhile Char.isWhitespace) with
      | some n => some n
      | none => matchSlashNumDai rest
    else matchSlashNumDai rest

/-- Leftmost match of `/全(\d+)[\s]*台/` (second `totalMatch` regex). -/
def matchZenNumDai : List Char → Option Nat
  | [] => none
  | c :: rest =>
    if c = '全' then
      match numDaiHere rest with
      | some n => some n
      | none => matchZenNumDai rest
    else matchZenNumDai rest

/-- Helper for `/残?(\d+)席/` at a fixed start after the optional `残`:
a nonempty digit run followed directly by `席`. -/
def digitsSekiHere (cs : List Char) : Option Nat :=
  let ds := cs.takeWhile Char.isDigit
  if ds.isEmpty then none
  else
    match cs.dropWhile Char.isDigit with
    | c :: _ => if c = '席' then some (digitsToNat ds) else none
    | [] => none

/-- Leftmost match of `/残?(\d+)席/` (the `parseSeatStatus` regex),
returning the captured number.  At a start position, if the character is
`残` the digits must follow it (backtracking the optional `残` cannot
succeed, as `残` is not a digit); otherwise the position itself must start
the digit run. -/
def matchZanSeki : List Char → Option Nat
  | [] => none
  | c :: rest =>
    if c = '残' then
      match digitsSekiHere rest with
      | some n => some n
      | none => matchZanSeki rest
    else if c.isDigit then
      match digitsSekiHere (c :: rest) with
      | some n => some n
      | none => matchZanSeki rest
    else matchZanSeki rest

/-! ## Normalizer (`scraper.service.ts`) -/

/-- `parseSeatStatus`: `"満席"`/`"×"` map to 0, otherwise the leftmost
`/残?(\d+)席/` capture, defaulting to 0. -/
def parseSeatStatus (cs : List Char) : Nat :=
  if cs = "満席".toList ∨ cs = "×".toList then 0
  else
    match matchZanSeki cs with
    | some n => n
    | none => 0

/-- JavaScript `parseInt(s, 10)`: skip leading whitespace, optional sign,
then a leading digit run; `none` models `NaN`. -/
def parseIntJS (s : String) : Option Int :=
  let cs := s.toList.dropWhile Char.isWhitespace
  match cs with
  | '-' :: rest =>
    let ds := rest.takeWhile Char.isDigit
    if ds.isEmpty then none else some (-(digitsToNat ds : Int))
  | '+' :: rest =>
    let ds := rest.takeWhile Char.isDigit
    if ds.isEmpty then none else some (digitsToNat ds : Int)
  | _ =>
    let ds := cs.takeWhile Char.isDigit
    if ds.isEmpty then none else some (digitsToNat ds : Int)

/-- `mapStatusNo`: the fixed status-code table.  The argument is the
`parseInt` result; `none` models `NaN`, which falls into `default`. -/
def mapStatusNo (statusNo : Option Int) : Status :=
  match statusNo with
  | some 1 => Status.vacant
  | some 2 => Status.crowded
  | some 3 => Status.crowded
  | some 4 => Status.full
  | _ => Status.unknown

/-- `determineStatus`: ratio-derived status.  The JS comparison
`available / total < 0.3` on small integer counts coincides with the exact
rational comparison `10 * available < 3 * total`, which is used here. -/
def determineStatus (available total : Nat) : Status :=
  if total = 0 then Status.unknown
  else if available = 0 then Status.full
  else if 10 * available < 3 * total then Status.crowded
  else Status.vacant

/-- One entry of the structured payload's `seat_type` array. -/
structure SeatType where
  seat_name : String
  category_id : String
  seat_status : String
  status_no : String
deriving DecidableEq, Repr

/-- `data.seat_type?.find(seat => seat.seat_name === 'ダーツ' || seat.category_id === '10')`. -/
def findDartInfo (seats : List SeatType) : Option SeatType :=
  seats.find? (fun s => s.seat_name == "ダーツ" || s.category_id == "10")

/-- The structured-payload dart normalization, inlined identically in
`fetchVacancyFromAPI` (direct channel) and in the captured-payload branch of
`scrapeVacancy` (rendered channel). -/
def dartVacancyFromSeatTypes (seats : List SeatType) : DartVacancy :=
  match findDartInfo seats with
  | some d =>
    let available := parseSeatStatus d.seat_status.toList
    { available := available
      total := if available > 0 then available else 0
      status := mapStatusNo (parseIntJS d.status_no) }
  | none => { available := 0, total := 0, status := Status.unknown }

/-! ## Rendered-document parse (`extractDartVacancy`)

The DOM is abstracted by (a) the text found by each CSS-selector candidate in
the code's fixed order (`none` when the selector matches no element), and
(b) the list of `tr`/`li` row texts. -/

/-- The selector loop of `extractDartVacancy`: at the first candidate whose
element exists and whose text matches the `availableMatch` regex, build the
record from the `availableMatch`/`totalMatch` captures; otherwise continue. -/
def trySelectors : List (Option (List Char)) → Option DartVacancy
  | [] => none
  | none :: rest => trySelectors rest
  | some text :: rest =>
    match matchNumDai text with
    | some available =>
      let total :=
        match matchSlashNumDai text with
        | some t => t
        | none =>
          match matchZenNumDai text with
          | some t => t
          | none => available
      some { available := available
             total := total
             status := determineStatus available total }
    | none => trySelectors rest

/-- `String.prototype.includes`: does `needle` occur contiguously in `hay`? -/
def containsSub (hay needle : List Char) : Bool :=
  match hay with
  | [] => needle.isEmpty
  | _ :: rest => needle.isPrefixOf hay || containsSub rest needle

/-- Does a row text contain the dart keyword (`rowText.includes('ダーツ') ||
rowText.includes('DARTS')`)? -/
def rowHasDartKeyword (row : List Char) : Bool :=
  containsSub row ("ダーツ".toList) || containsSub row ("DARTS".toList)

/-- The `tr, li` fallback scan of `extractDartVacancy`. -/
def tryRows : List (List Char) → Option DartVacancy
  | [] => none
  | row :: rest =>
    if rowHasDartKeyword row then
      match matchNumDai row with
      | some available =>
        some { available := available
               total := available
               status := determineStatus available available }
      | none => tryRows rest
    else tryRows rest

/-- `extractDartVacancy`: selector candidates, then the row scan, then the
zero/unknown default. -/
def extractDartVacancy (selectorTexts : List (Option (List Char)))
    (rows : List (List Char)) : DartVacancy :=
  match trySelectors selectorTexts with
  | some v => v
  | none =>
    match tryRows rows with
    | some v => v
    | none => { available := 0, total := 0, status := Status.unknown }

/-! ## Retry orchestration (`scrapeWithRetry`, `scraper.service.ts`)

The rendered-channel fetch of attempt `i` is an oracle `Nat → Except String α`.
The result pairs the loop's outcome with the list of backoff sleeps (in
milliseconds) performed between attempts. -/

/-- The body of the `for (attempt = 1; attempt <= maxRetries; attempt++)`
loop.  `remaining` counts the attempts still allowed (so the current
attempt is the last one exactly when `remaining = 1`, i.e. the code's
`attempt < maxRetries` sleep guard is `remaining - 1 ≠ 0`). -/
def runAttempts (oracle : Nat → Except String α) :
    Nat → Nat → Option String → Except String α × List Nat
  | _, 0, lastError =>
    (Except.error (lastError.getD "Failed to fetch vacancy data after all retries"), [])
  | attempt, r + 1, _lastError =>
    match oracle attempt with
    | Except.ok v => (Except.ok v, [])
    | Except.error e =>
      let res := runAttempts oracle (attempt + 1) r (some e)
      if r = 0 then res else (res.1, 2 ^ attempt * 1000 :: res.2)

/-- `scrapeWithRetry(storeCode, maxRetries)`: the loop runs
`max(maxRetries, 0)` iterations starting at attempt 1. -/
def scrapeWithRetry (oracle : Nat → Except String α) (maxRetries : Int) :
    Except String α × List Nat :=
  runAttempts oracle 1 maxRetries.toNat none

/-! ## TTL cache (`cache.service.ts` over node-cache)

Clock instants are milliseconds (`Date.now()`).  A stored entry carries the
node-cache expiry stamp `t`: `0` when the configured TTL is `0` (meaning no
expiry), else `insertedAt + ttl * 1000`; an entry is expired exactly when
`t ≠ 0 ∧ t < now`. -/

/-- The cache model: the configured TTL in seconds plus the entry map. -/
structure CacheService where
  ttl : Nat
  entries : String → Option (VacancyData × Nat)

/-- A fresh cache with the given configured TTL. -/
def emptyCache (ttl : Nat) : CacheService :=
  { ttl := ttl, entries := fun _ => none }

/-- `set(key, value)` at instant `now`. -/
def CacheService.set (c : CacheService) (key : String) (v : VacancyData)
    (now : Nat) : CacheService :=
  { c with
    entries := fun k =>
      if k = key then some (v, if c.ttl = 0 then 0 else now + c.ttl * 1000)
      else c.entries k }

/-- `get(key)` at instant `now`: the value if present and unexpired. -/
def CacheService.get (c : CacheService) (key : String) (now : Nat) :
    Option VacancyData :=
  match c.entries key with
  | some (v, t) => if t ≠ 0 ∧ t < now then none else some v
  | none => none

/-- `has(key)` at instant `now`. -/
def CacheService.has (c : CacheService) (key : String) (now : Nat) : Bool :=
  (c.get key now).isSome

/-- `getCacheAge(key)`: node-cache `getTtl` yields the expiry stamp of a
live entry (`undefined` once expired); the service then returns
`ttl - Math.floor((t - now) / 1000)`, guarded by the truthiness of `t`. -/
def CacheService.getCacheAge (c : CacheService) (key : String) (now : Nat) :
    Option Nat :=
  match c.entries key with
  | some (_, t) =>
    if t ≠ 0 ∧ t < now then none
    else if t = 0 then none
    else some (c.ttl - (t - now) / 1000)
  | none => none

/-! ## Scheduler (`scheduler.service.ts`) -/

/-- A wall-clock instant as the JS `Date` components used by
`getNextScheduledTime`.  `hour` is not reduced modulo 24: hour 24 stands for
00:00 of the next day (JS `setHours(24)` rolls the date forward). -/
structure Clock where
  hour : Nat
  min : Nat
  sec : Nat
  ms : Nat
deriving DecidableEq, Repr

/-- Component bounds of a real `Date`. -/
def Clock.valid (c : Clock) : Prop :=
  c.min < 60 ∧ c.sec < 60 ∧ c.ms < 1000

/-- Total milliseconds represented by a `Clock`, for comparing instants. -/
def Clock.toMs (c : Clock) : Nat :=
  ((c.hour * 60 + c.min) * 60 + c.sec) * 1000 + c.ms

/-- An instant of the form XX:(10*k+4):00.000 — a scheduler trigger. -/
def isTrigger (c : Clock) : Prop :=
  c.min < 60 ∧ c.min % 10 = 4 ∧ c.sec = 0 ∧ c.ms = 0

instance (c : Clock) : Decidable c.valid :=
  inferInstanceAs (Decidable (c.min < 60 ∧ c.sec < 60 ∧ c.ms < 1000))

instance (c : Clock) : Decidable (isTrigger c) :=
  inferInstanceAs (Decidable (c.min < 60 ∧ c.min % 10 = 4 ∧ c.sec = 0 ∧ c.ms = 0))

/-- `getNextScheduledTime`, translated clause by clause from the source. -/
def getNextScheduledTime (now : Clock) : Clock :=
  let currentSlot := now.min / 10
  let nextSlot :=
    if 4 ≤ now.min % 10 ∨ (now.min % 10 = 4 ∧ 0 < now.sec) then currentSlot + 1
    else currentSlot
  let nextMinute := nextSlot * 10 + 4
  if 60 ≤ nextMinute then { hour := now.hour + 1, min := 4, sec := 0, ms := 0 }
  else { hour := now.hour, min := nextMinute, sec := 0, ms := 0 }

/-- Timer bookkeeping of `SchedulerService`: the runtime's pending one-shot
from `start()` (a fresh handle, never recorded by the service), the
service's `intervals` field, and the runtime's live repeating timers. -/
structure SchedulerTimers where
  pendingTimeout : Option Nat
  intervals : List Nat
  liveIntervals : List Nat
deriving DecidableEq, Repr

/-- The state before `start()` is ever invoked. -/
def schedulerInit : SchedulerTimers :=
  { pendingTimeout := none, intervals := [], liveIntervals := [] }

/-- `start()`: registers the one-shot `setTimeout` (handle `h`) with the
runtime; the handle is not stored in `this.intervals`. -/
def schedulerStart (s : SchedulerTimers) (h : Nat) : SchedulerTimers :=
  { s with pendingTimeout := some h }

/-- The one-shot firing: it creates the repeating `setInterval` (handle `h`)
and pushes it onto `this.intervals`. -/
def schedulerTimeoutFires (s : SchedulerTimers) (h : Nat) : SchedulerTimers :=
  { pendingTimeout := none
    intervals := s.intervals ++ [h]
    liveIntervals := s.liveIntervals ++ [h] }

/-- `stop()`: `clearInterval` on every handle in `this.intervals`, then
reset the field; the pending one-shot is untouched. -/
def schedulerStop (s : SchedulerTimers) : SchedulerTimers :=
  { pendingTimeout := s.pendingTimeout
    intervals := []
    liveIntervals := s.liveIntervals.filter (fun h => !s.intervals.contains h) }

/-! ## Acquisition composition (`vacancy.controller.ts`, `scheduler.service.ts`) -/

/-- The two acquisition channels. -/
inductive Chan
  | direct
  | rendered
deriving DecidableEq, Repr

/-- The controller's fresh-fetch composition (`vacancy.controller.ts`
lines 62–71): try `fetchVacancyFromAPI`, and only on its failure call
`scrapeWithRetry(storeCode, 3)`.  The first component records which channel
fetchers are invoked, in order. -/
def controllerFetch (api : Except String VacancyData)
    (rendered : Nat → Except String VacancyData) :
    List Chan × Except String VacancyData :=
  match api with
  | Except.ok v => ([Chan.direct], Except.ok v)
  | Except.error _ => ([Chan.direct, Chan.rendered], (scrapeWithRetry rendered 3).1)

/-- The scheduler's per-store acquisition (`executeScraping`): it calls
`scrapeWithRetry(storeCode, 2)` directly — no direct-channel attempt. -/
def scheduledStoreFetch (rendered : Nat → Except String VacancyData) :
    List Chan × Except String VacancyData :=
  ([Chan.rendered], (scrapeWithRetry rendered 2).1)

/-- `getStoreCodesFromCache`: keys with the `vacancy:` namespace, stripped
and deduplicated (first occurrence kept, as `Array.from(new Set(...))`). -/
def getStoreCodesFromCache (keys : List String) : List String :=
  ((keys.filter (fun k => k.startsWith "vacancy:")).map (fun k => k.drop 8)).eraseDups

/-- The store list of a refresh round: cache-derived codes, or the default
store when none exist. -/
def executeScrapingStores (cacheKeys : List String) : List String :=
  let codes := getStoreCodesFromCache cacheKeys
  if codes.isEmpty then ["20333"] else codes

/-- One refresh round over the given stores: per-store rendered fetch;
successes written to the cache, failures skipped. -/
def executeScraping (stores : List String)
    (rendered : String → Nat → Except String VacancyData)
    (cache : CacheService) (now : Nat) : CacheService :=
  stores.foldl
    (fun c sc =>
      match (scheduledStoreFetch (rendered sc)).2 with
      | Except.ok v => c.set ("vacancy:" ++ sc) v now
      | Except.error _ => c)
    cache

/-! ## The vacancy endpoint (`getVacancy`, `vacancy.controller.ts`) -/

/-- `/^\d{5}$/.test(storeCode)` (with the preceding falsiness check). -/
def isValidStoreCode (s : String) : Bool :=
  s.length == 5 && s.toList.all Char.isDigit

/-- The JSON envelopes `getVacancy` can produce. -/
inductive Response
  | badRequest
  | okData (data : VacancyData) (cached : Bool) (cacheAge : Option Nat)
  | serverError (message : String)
deriving DecidableEq, Repr

/-- `getVacancy`: validation, the `noCache === 'true'` test, the guarded
cache lookup, the fresh fetch with fallback, the write-through, and the
response; paired with the cache state it leaves behind. -/
def getVacancy (storeCode : String) (noCacheParam : Option String)
    (cache : CacheService) (now : Nat) (api : Except String VacancyData)
    (rendered : Nat → Except String VacancyData) : Response × CacheService :=
  if !isValidStoreCode storeCode then (Response.badRequest, cache)
  else
    let cacheKey := "vacancy:" ++ storeCode
    let noCache := noCacheParam == some "true"
    match (if noCache then none else cache.get cacheKey now) with
    | some v => (Response.okData v true (cache.getCacheAge cacheKey now), cache)
    | none =>
      match (controllerFetch api rendered).2 with
      | Except.ok v => (Response.okData v false none, cache.set cacheKey v now)
      | Except.error e => (Response.serverError e, cache)

/-- A concrete record used in witnesses and counterexamples. -/
def sampleVacancy : VacancyData :=
  { storeCode := "20333"
    storeName := "快活CLUB"
    dartVacancy := { available := 3, total := 3, status := Status.vacant }
    lastUpdated := "2026-10-12T00:00:00.000Z"
    fetchedAt := "2026-10-12T00:00:00.000Z" }

/-! ## Helper lemmas about the retry loop -/

/-- One unfolding of the loop body. -/
lemma runAttempts_step (oracle : Nat → Except String α) (attempt r : Nat)
    (le : Option String) :
    runAttempts oracle attempt (r + 1) le =
      match oracle attempt with
      | Except.ok v => (Except.ok v, [])
      | Except.error e =>
        let res := runAttempts oracle (attempt + 1) r (some e)
        if r = 0 then res else (res.1, 2 ^ attempt * 1000 :: res.2) := rfl

/-- If every attempt in the window fails, the loop returns the last error
and sleeps after every attempt but the last. -/
lemma runAttempts_all_fail (oracle : Nat → Except String α) (f : Nat → String) :
    ∀ (r attempt : Nat) (le : Option String),
      (∀ i, attempt ≤ i → i < attempt + r + 1 → oracle i = Except.error (f i)) →
      runAttempts oracle attempt (r + 1) le =
        (Except.error (f (attempt + r)),
          (List.range' attempt r).map (fun i => 2 ^ i * 1000)) := by
  intro r
  induction r with
  | zero =>
    intro attempt le h
    have ha := h attempt (Nat.le_refl _) (by omega)
    rw [runAttempts_step, ha]
    rfl
  | succ r ih =>
    intro attempt le h
    have ha := h attempt (Nat.le_refl _) (by omega)
    have hrec := ih (attempt + 1) (some (f attempt))
      (fun i h1 h2 => h i (by omega) (by omega))
    have hr : attempt + 1 + r = attempt + (r + 1) := by omega
    have hstep : runAttempts oracle attempt (r + 1 + 1) le =
        ((runAttempts oracle (attempt + 1) (r + 1) (some (f attempt))).1,
          2 ^ attempt * 1000 ::
            (runAttempts oracle (attempt + 1) (r + 1) (some (f attempt))).2) := by
      rw [runAttempts_step, ha]
      rfl
    rw [hstep, hrec]
    simp [List.range'_succ, hr]

/-- If the attempts before `attempt + j` fail and attempt `attempt + j`
succeeds (within the window), the loop returns that success, having slept
after each failed attempt. -/
lemma runAttempts_success (oracle : Nat → Except String α) (v : α) :
    ∀ (j attempt r : Nat) (le : Option String),
      j ≤ r →
      (∀ i, attempt ≤ i → i < attempt + j → ∃ e, oracle i = Except.error e) →
      oracle (attempt + j) = Except.ok v →
      runAttempts oracle attempt (r + 1) le =
        (Except.ok v, (List.range' attempt j).map (fun i => 2 ^ i * 1000)) := by
  intro j
  induction j with
  | zero =>
    intro attempt r le _ _ hok
    rw [Nat.add_zero] at hok
    rw [runAttempts_step, hok]
    rfl
  | succ j ih =>
    intro attempt r le hjr hfail hok
    obtain ⟨e, he⟩ := hfail attempt (Nat.le_refl _) (by omega)
    obtain ⟨r', rfl⟩ : ∃ r', r = r' + 1 := ⟨r - 1, by omega⟩
    have hok' : oracle (attempt + 1 + j) = Except.ok v := by
      rw [show attempt + 1 + j = attempt + (j + 1) by omega]; exact hok
    have hrec := ih (attempt + 1) r' (some e) (by omega)
      (fun i h1 h2 => hfail i (by omega) (by omega)) hok'
    have hstep : runAttempts oracle attempt (r' + 1 + 1) le =
        ((runAttempts oracle (attempt + 1) (r' + 1) (some e)).1,
          2 ^ attempt * 1000 ::
            (runAttempts oracle (attempt + 1) (r' + 1) (some e)).2) := by
      rw [runAttempts_step, he]
      rfl
    rw [hstep, hrec]
    simp [List.range'_succ]

/-- C5: `scrapeWithRetry(id, maxAttempts)`, for `maxAttempts ≥ 1`, attempts
the rendered channel sequentially and returns the first successful result;
after each failed attempt `i < maxAttempts` it sleeps `2^i` seconds
(`2^i * 1000` ms); after all attempts fail it raises the last observed
error. -/
theorem scrapeWithRetry_firstSuccess_backoff_lastError
    (oracle : Nat → Except String α) (n : Nat) (hn : 1 ≤ n) :
    (∀ k v, 1 ≤ k → k ≤ n →
      (∀ i, 1 ≤ i → i < k → ∃ e, oracle i = Except.error e) →
      oracle k = Except.ok v →
      scrapeWithRetry oracle (n : Int) =
        (Except.ok v, (List.range' 1 (k - 1)).map (fun i => 2 ^ i * 1000))) ∧
    (∀ f : Nat → String,
      (∀ i, 1 ≤ i → i ≤ n → oracle i = Except.error (f i)) →
      scrapeWithRetry oracle (n : Int) =
        (Except.error (f n), (List.range' 1 (n - 1)).map (fun i => 2 ^ i * 1000))) := by
  have htn : ((n : Int)).toNat = n := Int.toNat_natCast n
  obtain ⟨m, rfl⟩ : ∃ m, n = m + 1 := ⟨n - 1, by omega⟩
  constructor
  · intro k v hk1 hkn hfail hok
    have h1k : 1 + (k - 1) = k := by omega
    have := runAttempts_success oracle v (k - 1) 1 m none (by omega)
      (fun i h1 h2 => hfail i h1 (by omega)) (by rw [h1k]; exact hok)
    unfold scrapeWithRetry
    rw [htn, this]
  · intro f hall
    have := runAttempts_all_fail oracle f m 1 none
      (fun i h1 h2 => hall i h1 (by omega))
    unfold scrapeWithRetry
    rw [htn, this]
    have h1m : 1 + m = m + 1 := by omega
    rw [h1m]
    simp

/-- Witness for C5: a rendered channel failing on attempts 1–2 and
succeeding on attempt 3, with `maxAttempts = 3`, returns the success value
after backoff sleeps of 2000 ms and 4000 ms (at least 2s + 4s total). -/
theorem scrapeWithRetry_firstSuccess_backoff_lastError_witness :
    scrapeWithRetry
        (fun i => if i < 3 then Except.error "fail" else Except.ok sampleVacancy)
        ((3 : Nat) : Int) =
      (Except.ok sampleVacancy, [2000, 4000]) ∧ 2000 + 4000 ≥ 6000 := by
  have h := (scrapeWithRetry_firstSuccess_backoff_lastError
      (fun i => if i < 3 then Except.error "fail" else Except.ok sampleVacancy)
      3 (by omega)).1 3 sampleVacancy (by omega) (by omega)
      (fun i h1 h2 => ⟨"fail", by simp [h2]⟩) (by simp)
  refine ⟨?_, by omega⟩
  rw [h]
  rfl

/-- C10: for every `maxRetries < 1` the loop body never runs, no fetch is
attempted (the result is the same for every oracle), and the fixed
fallback error is raised. -/
theorem scrapeWithRetry_noAttempts_fixedError
    (oracle : Nat → Except String α) (m : Int) (hm : m < 1) :
    scrapeWithRetry oracle m =
      (Except.error "Failed to fetch vacancy data after all retries", []) := by
  have h0 : m.toNat = 0 := by omega
  unfold scrapeWithRetry
  rw [h0]
  rfl

/-- Witness for C10 at `maxRetries = 0` with an always-succeeding oracle:
the success is never observed. -/
theorem scrapeWithRetry_noAttempts_fixedError_witness :
    scrapeWithRetry (fun _ => Except.ok sampleVacancy) (0 : Int) =
      (Except.error "Failed to fetch vacancy data after all retries", []) :=
  scrapeWithRetry_noAttempts_fixedError (fun _ => Except.ok sampleVacancy) 0
    (by omega)

/-! ## Scheduler theorems -/

/-- C4: `getNextScheduledTime(now)` returns the smallest instant of the
form XX:(10*k+4):00 strictly after `now`; at exactly a trigger instant it
advances to the next slot; minute overflow increments the hour (hour 24
standing for 00 of the next day); the spec's four examples hold. -/
theorem getNextScheduledTime_least_strictly_after :
    (∀ now : Clock, now.valid →
      isTrigger (getNextScheduledTime now) ∧
      now.toMs < (getNextScheduledTime now).toMs ∧
      (∀ t : Clock, isTrigger t → now.toMs < t.toMs →
        (getNextScheduledTime now).toMs ≤ t.toMs)) ∧
    getNextScheduledTime ⟨23, 1, 0, 0⟩ = ⟨23, 4, 0, 0⟩ ∧
    getNextScheduledTime ⟨23, 4, 0, 0⟩ = ⟨23, 14, 0, 0⟩ ∧
    getNextScheduledTime ⟨23, 7, 30, 0⟩ = ⟨23, 14, 0, 0⟩ ∧
    getNextScheduledTime ⟨23, 56, 0, 0⟩ = ⟨24, 4, 0, 0⟩ := by
  refine ⟨?_, by decide, by decide, by decide, by decide⟩
  rintro ⟨h, m, s, ms⟩ ⟨hm, hs, hms⟩
  dsimp only at hm hs hms
  simp only [getNextScheduledTime, Clock.toMs, isTrigger]
  split
  case isTrue hcond =>
    split
    case isTrue hroll =>
      refine ⟨⟨by norm_num, by norm_num, rfl, rfl⟩, by dsimp only; omega, ?_⟩
      rintro ⟨th, tm, ts, tms⟩ ⟨ht60, ht4, hts, htms⟩ htg
      dsimp only at ht60 ht4 hts htms htg ⊢
      subst hts htms
      omega
    case isFalse hroll =>
      refine ⟨⟨by dsimp only; omega, by dsimp only; omega, rfl, rfl⟩,
        by dsimp only; omega, ?_⟩
      rintro ⟨th, tm, ts, tms⟩ ⟨ht60, ht4, hts, htms⟩ htg
      dsimp only at ht60 ht4 hts htms htg ⊢
      subst hts htms
      omega
  case isFalse hcond =>
    split
    case isTrue hroll =>
      exfalso
      omega
    case isFalse hroll =>
      refine ⟨⟨by dsimp only; omega, by dsimp only; omega, rfl, rfl⟩,
        by dsimp only; omega, ?_⟩
      rintro ⟨th, tm, ts, tms⟩ ⟨ht60, ht4, hts, htms⟩ htg
      dsimp only at ht60 ht4 hts htms htg ⊢
      subst hts htms
      omega

/-- Witness for C4 at 23:01:00.000: the result is a trigger instant,
strictly after, and at most the trigger 23:14:00.000. -/
theorem getNextScheduledTime_least_strictly_after_witness :
    isTrigger (getNextScheduledTime ⟨23, 1, 0, 0⟩) ∧
    Clock.toMs ⟨23, 1, 0, 0⟩ < (getNextScheduledTime ⟨23, 1, 0, 0⟩).toMs ∧
    (getNextScheduledTime ⟨23, 1, 0, 0⟩).toMs ≤ Clock.toMs ⟨23, 14, 0, 0⟩ := by
  have h := getNextScheduledTime_least_strictly_after.1 ⟨23, 1, 0, 0⟩ (by decide)
  exact ⟨h.1, h.2.1, h.2.2 ⟨23, 14, 0, 0⟩ (by decide) (by decide)⟩

/-- C3 (exhibit): `stop()` clears and cancels every interval recorded in
`this.intervals`, is idempotent, and is safe before `start()`; but the
one-shot `setTimeout` created by `start()` is never recorded in
`this.intervals`, so after `start(); stop()` it is still pending and will
fire. -/
theorem schedulerStop_leaves_oneShot_pending :
    (schedulerStop (schedulerStart schedulerInit 1)).pendingTimeout = some 1 ∧
    schedulerStop (schedulerTimeoutFires (schedulerStart schedulerInit 1) 2) =
      { pendingTimeout := none, intervals := [], liveIntervals := [] } ∧
    schedulerStop (schedulerStop (schedulerTimeoutFires
        (schedulerStart schedulerInit 1) 2)) =
      schedulerStop (schedulerTimeoutFires (schedulerStart schedulerInit 1) 2) ∧
    schedulerStop schedulerInit = schedulerInit := by
  decide

/-! ## Normalizer theorems -/

/-- The pattern `残` + digits + `席` + anything matches with the digits
captured, whatever follows the `席`. -/
lemma matchZanSeki_pattern (ds suffix : List Char) (h1 : ds ≠ [])
    (h2 : ∀ c ∈ ds, c.isDigit = true) :
    matchZanSeki ('残' :: ds ++ '席' :: suffix) = some (digitsToNat ds) := by
  have htake : (ds ++ '席' :: suffix).takeWhile Char.isDigit = ds := by
    rw [List.takeWhile_append_of_pos h2]
    simp [List.takeWhile]
  have hdrop : (ds ++ '席' :: suffix).dropWhile Char.isDigit = '席' :: suffix := by
    rw [List.dropWhile_append_of_pos h2]
    simp [List.dropWhile]
  have hds : ds.isEmpty = false := by
    cases ds with
    | nil => exact absurd rfl h1
    | cons a l => rfl
  have hhere : digitsSekiHere (ds ++ '席' :: suffix) = some (digitsToNat ds) := by
    simp only [digitsSekiHere, htake, hdrop, hds]
    simp
  simp only [matchZanSeki, List.append_eq, if_true]
  rw [hhere]

/-- C7: `parseSeatStatus` maps the full markers `"満席"` and `"×"` to 0;
maps any string of the shape optional-`残` + digits + `席` (+ anything,
e.g. the `以上` qualifier) to the captured number — in particular
`"残10席以上"` to exactly 10; and maps every string the pattern does not
match to 0. -/
theorem parseSeatStatus_full_pattern_default :
    parseSeatStatus "満席".toList = 0 ∧
    parseSeatStatus "×".toList = 0 ∧
    parseSeatStatus "残10席以上".toList = 10 ∧
    (∀ ds suffix, ds ≠ [] → (∀ c ∈ ds, c.isDigit = true) →
      parseSeatStatus ('残' :: ds ++ '席' :: suffix) = digitsToNat ds) ∧
    (∀ cs, cs ≠ "満席".toList → cs ≠ "×".toList → matchZanSeki cs = none →
      parseSeatStatus cs = 0) := by
  refine ⟨by decide, by decide, by decide, ?_, ?_⟩
  · intro ds suffix h1 h2
    have hne1 : ('残' :: ds ++ '席' :: suffix) ≠ "満席".toList := by
      intro h
      rw [show "満席".toList = ['満', '席'] from rfl] at h
      have : '残' = '満' := by
        have := List.head_eq_of_cons_eq h
        exact this
      exact absurd this (by decide)
    have hne2 : ('残' :: ds ++ '席' :: suffix) ≠ "×".toList := by
      intro h
      rw [show "×".toList = ['×'] from rfl] at h
      have : '残' = '×' := by
        have := List.head_eq_of_cons_eq h
        exact this
      exact absurd this (by decide)
    simp only [parseSeatStatus, hne1, hne2, or_self, if_false,
      matchZanSeki_pattern ds suffix h1 h2]
  · intro cs hne1 hne2 hnone
    simp only [parseSeatStatus, hne1, hne2, or_self, if_false, hnone]

/-- Witness for C7: the pattern clause at `"残3席"` and the default clause
at `"営業時間外"`. -/
theorem parseSeatStatus_full_pattern_default_witness :
    parseSeatStatus ('残' :: ['3'] ++ '席' :: []) = digitsToNat ['3'] ∧
    parseSeatStatus "営業時間外".toList = 0 :=
  ⟨parseSeatStatus_full_pattern_default.2.2.2.1 ['3'] [] (by decide) (by decide),
   parseSeatStatus_full_pattern_default.2.2.2.2 "営業時間外".toList (by decide)
     (by decide) (by decide)⟩

/-- Every record the selector loop yields carries the ratio-derived status. -/
lemma trySelectors_status :
    ∀ (sel : List (Option (List Char))) (v : DartVacancy),
      trySelectors sel = some v →
      v.status = determineStatus v.available v.total := by
  intro sel
  induction sel with
  | nil => intro v h; simp [trySelectors] at h
  | cons hd tl ih =>
    intro v h
    cases hd with
    | none =>
      exact ih v (by simpa [trySelectors] using h)
    | some text =>
      rw [trySelectors] at h
      cases hm : matchNumDai text with
      | some a =>
        rw [hm] at h
        simp only [Option.some.injEq] at h
        subst h
        rfl
      | none =>
        rw [hm] at h
        exact ih v h

/-- Every record the row scan yields carries the ratio-derived status. -/
lemma tryRows_status :
    ∀ (rows : List (List Char)) (v : DartVacancy),
      tryRows rows = some v →
      v.status = determineStatus v.available v.total := by
  intro rows
  induction rows with
  | nil => intro v h; simp [tryRows] at h
  | cons row rest ih =>
    intro v h
    rw [tryRows] at h
    by_cases hk : rowHasDartKeyword row
    · rw [if_pos hk] at h
      cases hm : matchNumDai row with
      | some a =>
        rw [hm] at h
        simp only [Option.some.injEq] at h
        subst h
        rfl
      | none =>
        rw [hm] at h
        exact ih v h
    · rw [if_neg hk] at h
      exact ih v h

/-- C1 (amended): in the structured-payload parse (shared by the direct
channel and the captured-payload branch of the rendered channel), when the
dart entry is absent the record is `{0, 0, unknown}`, and when it is
present the status is always the code-mapped `mapStatusNo` value — never
the ratio-derived one — with `total = available`; in the rendered-document
parse the status always equals `determineStatus available total`, so there
`total = 0` implies status `unknown`. -/
theorem availability_status_sources :
    (∀ seats, findDartInfo seats = none →
      dartVacancyFromSeatTypes seats =
        { available := 0, total := 0, status := Status.unknown }) ∧
    (∀ seats d, findDartInfo seats = some d →
      dartVacancyFromSeatTypes seats =
        { available := parseSeatStatus d.seat_status.toList
          total := parseSeatStatus d.seat_status.toList
          status := mapStatusNo (parseIntJS d.status_no) }) ∧
    (∀ sel rows, (extractDartVacancy sel rows).status =
      determineStatus (extractDartVacancy sel rows).available
        (extractDartVacancy sel rows).total) ∧
    (∀ sel rows, (extractDartVacancy sel rows).total = 0 →
      (extractDartVacancy sel rows).status = Status.unknown) := by
  have hext : ∀ sel rows, (extractDartVacancy sel rows).status =
      determineStatus (extractDartVacancy sel rows).available
        (extractDartVacancy sel rows).total := by
    intro sel rows
    unfold extractDartVacancy
    cases hs : trySelectors sel with
    | some v => exact trySelectors_status sel v hs
    | none =>
      cases hr : tryRows rows with
      | some v => exact tryRows_status rows v hr
      | none => rfl
  refine ⟨?_, ?_, hext, ?_⟩
  · intro seats hnone
    unfold dartVacancyFromSeatTypes
    rw [hnone]
  · intro seats d hsome
    simp only [dartVacancyFromSeatTypes, hsome, DartVacancy.mk.injEq]
    refine ⟨trivial, ?_, trivial⟩
    split <;> omega
  · intro sel rows h0
    rw [hext sel rows, h0]
    rfl

/-- Witness for C1's amended statement: a payload whose dart entry has
`seat_status` `"残3席"` and `status_no` `"1"` yields
`{3, 3, mapStatusNo (some 1)}`. -/
theorem availability_status_sources_witness :
    dartVacancyFromSeatTypes [⟨"ダーツ", "10", "残3席", "1"⟩] =
      { available := parseSeatStatus "残3席".toList
        total := parseSeatStatus "残3席".toList
        status := mapStatusNo (parseIntJS "1") } :=
  availability_status_sources.2.1 [⟨"ダーツ", "10", "残3席", "1"⟩]
    ⟨"ダーツ", "10", "残3席", "1"⟩ (by decide)

/-- Counterexample to C1 as stated: the structured parse of a dart entry
with `seat_status` `"満席"` and `status_no` `"4"` yields
`total = 0` with status `full ≠ unknown`; and with `total = 3 > 0` and no
parseable status code the status is `unknown`, not the ratio-derived
`vacant`. -/
theorem availability_status_counterexample :
    dartVacancyFromSeatTypes [⟨"ダーツ", "10", "満席", "4"⟩] =
      { available := 0, total := 0, status := Status.full } ∧
    Status.full ≠ Status.unknown ∧
    dartVacancyFromSeatTypes [⟨"ダーツ", "10", "残3席", ""⟩] =
      { available := 3, total := 3, status := Status.unknown } ∧
    determineStatus 3 3 = Status.vacant ∧
    Status.unknown ≠ Status.vacant := by
  decide

/-- C6 (exhibit): on the selector text `"3 / 8台"` the `availableMatch`
regex `/(\d+)[\s]*[台]/` skips the `3` (not followed by `台`) and captures
the `8`, so the code returns `available = 8`, `total = 8`, status `vacant`
— not `available = 3`, `total = 8`.  On `"3台"` the claimed behaviour
holds: `available = total = 3` with the ratio-derived status. -/
theorem extractDartVacancy_slash_pattern :
    extractDartVacancy [some ("3 / 8台".toList)] [] =
      { available := 8, total := 8, status := Status.vacant } ∧
    ({ available := 8, total := 8, status := Status.vacant } : DartVacancy) ≠
      { available := 3, total := 8, status := determineStatus 3 8 } ∧
    extractDartVacancy [some ("3台".toList)] [] =
      { available := 3, total := 3, status := determineStatus 3 3 } := by
  decide

/-! ## Channel-fallback and cache-write theorems -/

/-- Counterexample to C2 as stated: a scheduled refresh acquisition invokes
the rendered channel first (and only); its first attempted channel is not
the direct structured endpoint. -/
theorem scheduled_acquisition_skips_direct :
    (scheduledStoreFetch (fun _ => Except.ok sampleVacancy)).1 = [Chan.rendered] ∧
    ([Chan.rendered].head? ≠ some Chan.direct) := by
  decide

/-- C2 (amended): client-request acquisitions first attempt the direct
channel and invoke the rendered retry path (3 attempts) only on its
failure; scheduled refresh rounds invoke only the rendered retry path
(2 attempts) per store; in both paths a successfully acquired record is
written to the cache. -/
theorem acquisition_channel_policy :
    (∀ (rendered : Nat → Except String VacancyData) (v : VacancyData),
      controllerFetch (Except.ok v) rendered = ([Chan.direct], Except.ok v)) ∧
    (∀ (rendered : Nat → Except String VacancyData) (e : String),
      controllerFetch (Except.error e) rendered =
        ([Chan.direct, Chan.rendered], (scrapeWithRetry rendered 3).1)) ∧
    (∀ rendered : Nat → Except String VacancyData,
      (scheduledStoreFetch rendered).1 = [Chan.rendered] ∧
      (scheduledStoreFetch rendered).2 = (scrapeWithRetry rendered 2).1) ∧
    (∀ (sc : String) (rendered : String → Nat → Except String VacancyData)
        (cache : CacheService) (now : Nat) (v : VacancyData),
      (scrapeWithRetry (rendered sc) 2).1 = Except.ok v →
      executeScraping [sc] rendered cache now =
        cache.set ("vacancy:" ++ sc) v now) ∧
    (∀ (sc : String) (cache : CacheService) (now : Nat)
        (api : Except String VacancyData)
        (rendered : Nat → Except String VacancyData) (v : VacancyData),
      isValidStoreCode sc = true →
      cache.get ("vacancy:" ++ sc) now = none →
      api = Except.ok v →
      getVacancy sc none cache now api rendered =
        (Response.okData v false none, cache.set ("vacancy:" ++ sc) v now)) := by
  refine ⟨fun _ _ => rfl, fun _ _ => rfl, fun _ => ⟨rfl, rfl⟩, ?_, ?_⟩
  · intro sc rendered cache now v h
    simp only [executeScraping, scheduledStoreFetch, List.foldl, h]
  · intro sc cache now api rendered v hsc hget hapi
    subst hapi
    simp only [getVacancy, hsc, Bool.not_true, Bool.false_eq_true, if_false,
      hget, controllerFetch]
    rfl

/-- Witness for C2's amended statement: a one-store scheduled round whose
rendered fetch succeeds writes the record into the cache. -/
theorem acquisition_channel_policy_witness :
    executeScraping ["20333"] (fun _ _ => Except.ok sampleVacancy)
        (emptyCache 900) 0 =
      (emptyCache 900).set ("vacancy:" ++ "20333") sampleVacancy 0 :=
  acquisition_channel_policy.2.2.2.1 "20333" (fun _ _ => Except.ok sampleVacancy)
    (emptyCache 900) 0 sampleVacancy rfl

/-- Counterexample to C8 as stated: 500 ms after insertion, zero whole
seconds have elapsed (`500 / 1000 = 0`), but `getCacheAge` reports 1 —
it rounds the elapsed time up, not down; moreover at the instant the TTL
has exactly elapsed (900 000 ms) the entry is still returned. -/
theorem getCacheAge_not_floor_counterexample :
    ((emptyCache 900).set "vacancy:20333" sampleVacancy 0).getCacheAge
        "vacancy:20333" 500 = some 1 ∧
    (500 - 0) / 1000 = 0 ∧
    ¬ (((emptyCache 900).set "vacancy:20333" sampleVacancy 0).getCacheAge
        "vacancy:20333" 500 = some ((500 - 0) / 1000)) ∧
    ((emptyCache 900).set "vacancy:20333" sampleVacancy 0).get
        "vacancy:20333" 900000 = some sampleVacancy ∧
    ((emptyCache 900).set "vacancy:20333" sampleVacancy 0).has
        "vacancy:20333" 900000 = true := by
  decide

/-- C8 (amended): after `set(k, v)` at `t0` with configured TTL `ttl > 0`
seconds, for any read instant `t1 ≥ t0`: while the elapsed time is at most
`ttl * 1000` ms, `get` returns `v`, `has` is true, and `getCacheAge`
equals the elapsed time rounded up to whole seconds
(`(elapsed + 999) / 1000`), which is non-decreasing and bounded by `ttl`;
strictly after the TTL has elapsed, `get` is empty, `has` is false, and
`getCacheAge` is empty — even though no sweep is modelled. -/
theorem cache_ttl_get_has_age (ttl : Nat) (httl : 0 < ttl) (k : String)
    (v : VacancyData) (t0 t1 : Nat) (h01 : t0 ≤ t1) :
    (t1 - t0 ≤ ttl * 1000 →
      ((emptyCache ttl).set k v t0).get k t1 = some v ∧
      ((emptyCache ttl).set k v t0).has k t1 = true ∧
      ((emptyCache ttl).set k v t0).getCacheAge k t1 =
        some ((t1 - t0 + 999) / 1000) ∧
      (t1 - t0 + 999) / 1000 ≤ ttl) ∧
    (ttl * 1000 < t1 - t0 →
      ((emptyCache ttl).set k v t0).get k t1 = none ∧
      ((emptyCache ttl).set k v t0).has k t1 = false ∧
      ((emptyCache ttl).set k v t0).getCacheAge k t1 = none) ∧
    (∀ t2, t1 ≤ t2 → (t1 - t0 + 999) / 1000 ≤ (t2 - t0 + 999) / 1000) := by
  have httl0 : ttl ≠ 0 := by omega
  have hentry : ((emptyCache ttl).set k v t0).entries k =
      some (v, t0 + ttl * 1000) := by
    simp [CacheService.set, emptyCache, httl0]
  have httlproj : ((emptyCache ttl).set k v t0).ttl = ttl := rfl
  refine ⟨?_, ?_, ?_⟩
  · intro hle
    have hnotexp : ¬ (t0 + ttl * 1000 ≠ 0 ∧ t0 + ttl * 1000 < t1) := by omega
    refine ⟨?_, ?_, ?_, by omega⟩
    · simp only [CacheService.get, hentry, if_neg hnotexp]
    · simp only [CacheService.has, CacheService.get, hentry, if_neg hnotexp,
        Option.isSome]
    · simp only [CacheService.getCacheAge, hentry, if_neg hnotexp,
        if_neg (show ¬ (t0 + ttl * 1000 = 0) by omega), httlproj]
      congr 1
      omega
  · intro hlt
    have hexp : t0 + ttl * 1000 ≠ 0 ∧ t0 + ttl * 1000 < t1 := by omega
    refine ⟨?_, ?_, ?_⟩
    · simp only [CacheService.get, hentry, if_pos hexp]
    · simp only [CacheService.has, CacheService.get, hentry, if_pos hexp,
        Option.isSome]
    · simp only [CacheService.getCacheAge, hentry, if_pos hexp]
  · intro t2 h12
    have h1 : t1 - t0 + 999 ≤ t2 - t0 + 999 := by omega
    exact Nat.div_le_div_right h1

/-- Witness for C8's amended statement with TTL 900 s, insertion at 0 ms
and a read at 500 ms. -/
theorem cache_ttl_get_has_age_witness :
    ((emptyCache 900).set "k" sampleVacancy 0).get "k" 500 = some sampleVacancy ∧
    ((emptyCache 900).set "k" sampleVacancy 0).getCacheAge "k" 500 =
      some ((500 - 0 + 999) / 1000) := by
  have h := (cache_ttl_get_has_age 900 (by omega) "k" sampleVacancy 0 500
    (by omega)).1 (by omega)
  exact ⟨h.1, h.2.2.1⟩

/-- C9: when the query parameter `noCache` equals the exact string
`'true'`, `getVacancy` skips the cache lookup and performs the fresh
fetch, writing a successful record back into the cache and returning it
with `cached: false`; for every other `noCache` value (including absence)
the cache-first behaviour applies. -/
theorem getVacancy_noCache_param (sc : String) (hsc : isValidStoreCode sc = true)
    (p : Option String) (cache : CacheService) (now : Nat)
    (api : Except String VacancyData)
    (rendered : Nat → Except String VacancyData) :
    (p = some "true" →
      getVacancy sc p cache now api rendered =
        match (controllerFetch api rendered).2 with
        | Except.ok v => (Response.okData v false none,
            cache.set ("vacancy:" ++ sc) v now)
        | Except.error e => (Response.serverError e, cache)) ∧
    (p ≠ some "true" →
      (∀ w, cache.get ("vacancy:" ++ sc) now = some w →
        getVacancy sc p cache now api rendered =
          (Response.okData w true (cache.getCacheAge ("vacancy:" ++ sc) now),
            cache)) ∧
      (cache.get ("vacancy:" ++ sc) now = none →
        getVacancy sc p cache now api rendered =
          match (controllerFetch api rendered).2 with
          | Except.ok v => (Response.okData v false none,
              cache.set ("vacancy:" ++ sc) v now)
          | Except.error e => (Response.serverError e, cache))) := by
  constructor
  · intro hp
    subst hp
    simp only [getVacancy, hsc, Bool.not_true, Bool.false_eq_true, if_false]
    have : (some "true" == some "true") = true := by decide
    rw [this]
    cases hres : (controllerFetch api rendered).2 with
    | ok v => simp [hres]
    | error e => simp [hres]
  · intro hp
    have hbeq : (p == some "true") = false := beq_eq_false_iff_ne.mpr hp
    constructor
    · intro w hw
      simp only [getVacancy, hsc, Bool.not_true, Bool.false_eq_true, if_false,
        hbeq, hw]
    · intro hnone
      simp only [getVacancy, hsc, Bool.not_true, Bool.false_eq_true, if_false,
        hbeq, hnone]

/-- Witness for C9: with `noCache = 'true'`, a warm cache entry is ignored,
the fresh record is returned with `cached: false`, and the cache is
rewritten. -/
theorem getVacancy_noCache_param_witness :
    getVacancy "20333" (some "true")
        ((emptyCache 900).set "vacancy:20333" sampleVacancy 0) 10
        (Except.ok sampleVacancy) (fun _ => Except.error "x") =
      (Response.okData sampleVacancy false none,
        ((emptyCache 900).set "vacancy:20333" sampleVacancy 0).set
          ("vacancy:" ++ "20333") sampleVacancy 10) := by
  have h := (getVacancy_noCache_param "20333" (by decide) (some "true")
    ((emptyCache 900).set "vacancy:20333" sampleVacancy 0) 10
    (Except.ok sampleVacancy) (fun _ => Except.error "x")).1 rfl
  exact h

end Kaikatsu
